import Mathlib

/-!
Verification of the FormAgent repository's specified core: the field
interpreter (`server/ai/interpreter.py`), the user-data model
(`server/models/user_data.py`), the mapping storage
(`server/database/db_manager.py`) and the HTTP data routes
(`server/api/routes.py` with `server/services/data_service.py`),
shallowly embedded in Lean.

Strings are modelled by Lean `String`; Python `float` confidences by `ℚ`
(all confidences in this code are small decimal literals, on which the
arithmetic used here — comparison and averaging of exact decimals — is
modelled exactly); Python dictionaries by association lists with unique
keys; SQLite tables by lists of rows.
-/

/-! ## Substring search (model of `re.search` for the alternation-of-literals
patterns used in `interpreter.py`) -/

/-- Predicate `charsHead p s` : the character list `p` is an initial run of `s`. -/
def charsHead : List Char → List Char → Bool
  | [], _ => true
  | _ :: _, [] => false
  | p :: ps, c :: cs => p == c && charsHead ps cs

/-- Predicate `charsIn p s` : the character list `p` occurs contiguously inside `s`. -/
def charsIn (p : List Char) : List Char → Bool
  | [] => p.isEmpty
  | c :: cs => charsHead p (c :: cs) || charsIn p cs

/-- ASCII lowercasing, character by character (the pattern literals are all
ASCII, so case-insensitive matching of them coincides with matching the
ASCII-lowercased text). -/
def lowerChars (l : List Char) : List Char :=
  l.map Char.toLower

/-- Python `str.strip()` whitespace, restricted to the ASCII whitespace
characters. -/
def pyWs (c : Char) : Bool :=
  c == ' ' || c == '\t' || c == '\n' || c == '\r' || c == '\x0b' || c == '\x0c'

/-- Python `s.strip()` on a character list: drop leading and trailing
whitespace. -/
def pyStripChars (l : List Char) : List Char :=
  (((l.dropWhile pyWs).reverse).dropWhile pyWs).reverse

/-- Python `s.strip().lower()`. -/
def pyStripLower (s : String) : String :=
  ⟨lowerChars (pyStripChars s.data)⟩

/-- Model of `PATTERN.search(field_text)` for a case-insensitive regex that is
an alternation of literal words: some alternative occurs in the lowercased
text. Each regex of `interpreter.py` is listed below by the finite set of
literal strings its alternation denotes (`[-_]?` expanded to its three
choices). -/
def searchPat (alts : List String) (text : String) : Bool :=
  alts.any fun p => charsIn p.data (lowerChars text.data)

/-- Model of `EMAIL_PATTERN = email|e[-_]?mail|mail` -/
def emailAlts : List String := ["email", "e-mail", "e_mail", "mail"]

/-- Model of `PHONE_PATTERN = phone|telephone|mobile|cell|tel` -/
def phoneAlts : List String := ["phone", "telephone", "mobile", "cell", "tel"]

/-- Model of `NAME_PATTERN = name|full[-_]?name` -/
def nameAlts : List String := ["name", "fullname", "full-name", "full_name"]

/-- Model of `FIRST_NAME_PATTERN = first[-_]?name|given[-_]?name|fname` -/
def firstNameAlts : List String :=
  ["firstname", "first-name", "first_name", "givenname", "given-name", "given_name", "fname"]

/-- Model of `LAST_NAME_PATTERN = last[-_]?name|surname|family[-_]?name|lname` -/
def lastNameAlts : List String :=
  ["lastname", "last-name", "last_name", "surname", "familyname", "family-name", "family_name", "lname"]

/-- Model of `ADDRESS_PATTERN = address|street|addr` -/
def addressAlts : List String := ["address", "street", "addr"]

/-- Model of `CITY_PATTERN = city|town|locality` -/
def cityAlts : List String := ["city", "town", "locality"]

/-- Model of `STATE_PATTERN = state|province|region|county` -/
def stateAlts : List String := ["state", "province", "region", "county"]

/-- Model of `ZIP_PATTERN = zip|postal|post[-_]?code` -/
def zipAlts : List String := ["zip", "postal", "postcode", "post-code", "post_code"]

/-- Model of `COUNTRY_PATTERN = country|nation` -/
def countryAlts : List String := ["country", "nation"]

/-! ## FieldDesc interpreter (`server/ai/interpreter.py`) -/

/-- A form-field descriptor: attributes read with `field.get(k, '')`, so a
missing attribute is the empty string. -/
structure FieldDesc where
  name : String
  id : String
  type : String
  label : String
  placeholder : String
deriving DecidableEq, Repr

/-- The combined field text: name, id, label and placeholder joined by single spaces. -/
def fieldText (f : FieldDesc) : String :=
  f.name ++ " " ++ f.id ++ " " ++ f.label ++ " " ++ f.placeholder

/-- A `FieldMapping` emitted by the interpreter. -/
structure Mapping where
  field_name : String
  field_type : String
  user_field : String
  confidence : ℚ
  method : String
deriving DecidableEq, Repr

/-- The exact value of the float literal `0.9`. -/
def conf09 : ℚ := ⟨9, 10, by norm_num, by norm_num⟩

/-- The exact value of the float literal `0.8`. -/
def conf08 : ℚ := ⟨4, 5, by norm_num, by norm_num⟩

/-- The exact value of the float literal `0.85`. -/
def conf085 : ℚ := ⟨17, 20, by norm_num, by norm_num⟩

/-- Model of `FormInterpreter._match_field_patterns(field_text, field_type)`:
the ordered chain of pattern checks, first hit wins. -/
def match_field_patterns (text ty : String) : Option String × ℚ :=
  if ty == "email" || searchPat emailAlts text then (some "email", conf09)
  else if ty == "tel" || searchPat phoneAlts text then (some "phone", conf09)
  else if searchPat firstNameAlts text then (some "first_name", conf09)
  else if searchPat lastNameAlts text then (some "last_name", conf09)
  else if searchPat nameAlts text then (some "full_name", conf08)
  else if searchPat addressAlts text then (some "address_street", conf08)
  else if searchPat cityAlts text then (some "address_city", conf08)
  else if searchPat stateAlts text then (some "address_state", conf08)
  else if searchPat zipAlts text then (some "address_zip", conf09)
  else if searchPat countryAlts text then (some "address_country", conf09)
  else (none, 0)

/-- One row of the spec's priority table: category, optional HTML-type
trigger, text pattern, confidence. -/
structure Rule where
  category : String
  typeTrig : Option String
  pats : List String
  conf : ℚ

/-- Modelled from the spec: evaluate rules in order, first matching rule
wins, no rule match gives `(none, 0)`. Used only to compare against
`match_field_patterns`. -/
def firstRuleMatch : List Rule → String → String → Option String × ℚ
  | [], _, _ => (none, 0)
  | r :: rest, text, ty =>
    if (match r.typeTrig with | some t => ty == t | none => false) || searchPat r.pats text then
      (some r.category, r.conf)
    else firstRuleMatch rest text ty

/-- Modelled from the spec: the ten-row priority table of §4.1. -/
def ruleTable : List Rule :=
  [⟨"email", some "email", emailAlts, conf09⟩,
   ⟨"phone", some "tel", phoneAlts, conf09⟩,
   ⟨"first_name", none, firstNameAlts, conf09⟩,
   ⟨"last_name", none, lastNameAlts, conf09⟩,
   ⟨"full_name", none, nameAlts, conf08⟩,
   ⟨"address_street", none, addressAlts, conf08⟩,
   ⟨"address_city", none, cityAlts, conf08⟩,
   ⟨"address_state", none, stateAlts, conf08⟩,
   ⟨"address_zip", none, zipAlts, conf09⟩,
   ⟨"address_country", none, countryAlts, conf09⟩]

/-- Outcome of the external RAG query `self.qa.invoke(query)`:
the call raises, or returns a dict whose `result` entry (default `''`)
is the given string. -/
inductive RagOutcome where
  | raises : RagOutcome
  | answers : String → RagOutcome
deriving DecidableEq, Repr

/-- Python `field_name or field_id`: string truthiness. -/
def nameOrId (f : FieldDesc) : String :=
  if f.name == "" then f.id else f.name

/-- The RAG block of `_interpret_field`: `rag = none` models
`self.rag_enabled and self.qa` being falsy (block skipped); an exception is
caught and logged; an answer is stripped, lowercased, and used only if
non-empty and shorter than 50 characters, at confidence 0.85. -/
def ragMapping (rag : Option RagOutcome) (f : FieldDesc) : Option Mapping :=
  match rag with
  | some (RagOutcome.answers s) =>
    let rf := pyStripLower s
    if rf != "" && rf.length < 50 then
      some ⟨nameOrId f, f.type, rf, conf085, "rag"⟩
    else none
  | _ => none

/-- Model of `FormInterpreter._interpret_field(field)`: pattern match first; a match
with confidence ≥ 0.8 is returned at once; otherwise the RAG path may
answer; otherwise a lower-confidence pattern match is returned; otherwise
no mapping. -/
def interpret_field (rag : Option RagOutcome) (f : FieldDesc) : Option Mapping :=
  match match_field_patterns (fieldText f) f.type with
  | (some u, conf) =>
    if conf08 ≤ conf then
      some ⟨nameOrId f, f.type, u, conf, "pattern_matching"⟩
    else
      match ragMapping rag f with
      | some m => some m
      | none => some ⟨nameOrId f, f.type, u, conf, "pattern_matching"⟩
  | (none, _) => ragMapping rag f

/-- Model of `FormInterpreter._calculate_confidence(mappings)`: average confidence,
0 for an empty list. -/
def calculate_confidence (ms : List Mapping) : ℚ :=
  if ms.isEmpty then 0
  else (ms.map Mapping.confidence).sum / (ms.length : ℚ)

/-- Model of `FormInterpreter.interpret_form(form_data)`: interpret each field,
keep the non-`None` mappings in order, average their confidences. -/
def interpret_form (rag : Option RagOutcome) (fields : List FieldDesc) : List Mapping × ℚ :=
  if fields.isEmpty then ([], 0)
  else
    let mappings := fields.filterMap (interpret_field rag)
    (mappings, calculate_confidence mappings)

/-- The mutable attributes a `FormInterpreter` instance carries after
`__init__` (all set there and read, never written, by the interpret
methods). -/
structure InterpreterState where
  rag_enabled : Bool
  qa_present : Bool
  db_path : String
deriving DecidableEq, Repr

/-- Method view of `interpret_form`: it reads the instance state (the RAG
oracle is consulted only when `self.rag_enabled and self.qa` holds) and
returns the instance state it leaves behind — unchanged, since the method
assigns no attribute. -/
def interpret_form_method (s : InterpreterState) (oracle : RagOutcome)
    (fields : List FieldDesc) : InterpreterState × (List Mapping × ℚ) :=
  (s, interpret_form (if s.rag_enabled && s.qa_present then some oracle else none) fields)




/-! ## JSON dictionaries and the `UserData` model (`server/models/user_data.py`) -/

/-- A JSON value as the code distinguishes them: `null` (Python `None`)
or any non-null value, carried opaquely. -/
inductive JVal where
  | null : JVal
  | val : String → JVal
deriving DecidableEq, Repr

/-- A Python dictionary: an association list with (by construction in
Python) unique keys, in insertion order. -/
abbrev Dict := List (String × JVal)

/-- Python `dict.__setitem__` / one step of `dict.update`: replace the value
of an existing key in place, else append the pair. -/
def assocUpdate {β : Type} : List (String × β) → String → β → List (String × β)
  | [], k, v => [(k, v)]
  | (a, w) :: rest, k, v =>
    if a == k then (a, v) :: rest else (a, w) :: assocUpdate rest k v

/-- The ten known profile keys of `UserData`. -/
def knownKeys : List String :=
  ["first_name", "last_name", "full_name", "email", "phone",
   "address_street", "address_city", "address_state", "address_zip", "address_country"]

/-- Model of `UserData` (`models/user_data.py`): the ten known fields (`none` models
Python `None`, i.e. absent or null) plus the custom-field dict, whose values
are non-null by construction. -/
structure UserData where
  user_id : String
  first_name : Option String
  last_name : Option String
  full_name : Option String
  email : Option String
  phone : Option String
  address_street : Option String
  address_city : Option String
  address_state : Option String
  address_zip : Option String
  address_country : Option String
  custom_fields : List (String × String)
deriving DecidableEq, Repr

/-- Python `data.get(k)` for a known field: the value if present and non-null,
else `None`. -/
def getKnown (data : Dict) (k : String) : Option String :=
  match data.lookup k with
  | some (JVal.val s) => some s
  | _ => none

/-- The custom-field comprehension of `UserData.from_dict`:
`{k: v for k, v in data.items() if k not in known_fields and v is not None}`. -/
def customFieldsOf (data : Dict) : List (String × String) :=
  data.filterMap fun kv =>
    if kv.1 ∈ knownKeys then none
    else match kv.2 with
      | JVal.null => none
      | JVal.val s => some (kv.1, s)

/-- Model of `UserData.from_dict(user_id, data)`: extract the ten known fields;
every other key with a non-null value becomes a custom field. -/
def UserData.from_dict (uid : String) (data : Dict) : UserData where
  user_id := uid
  first_name := getKnown data "first_name"
  last_name := getKnown data "last_name"
  full_name := getKnown data "full_name"
  email := getKnown data "email"
  phone := getKnown data "phone"
  address_street := getKnown data "address_street"
  address_city := getKnown data "address_city"
  address_state := getKnown data "address_state"
  address_zip := getKnown data "address_zip"
  address_country := getKnown data "address_country"
  custom_fields := customFieldsOf data

/-- The known-field pairs of `UserData.to_dict`, in its declaration
order. -/
def knownPairs (u : UserData) : List (String × Option String) :=
  [("first_name", u.first_name), ("last_name", u.last_name), ("full_name", u.full_name),
   ("email", u.email), ("phone", u.phone), ("address_street", u.address_street),
   ("address_city", u.address_city), ("address_state", u.address_state),
   ("address_zip", u.address_zip), ("address_country", u.address_country)]

/-- Model of `UserData.to_dict()`: the known fields in declaration order with `None`
values removed, then `result.update(self.custom_fields)`. -/
def UserData.to_dict (u : UserData) : Dict :=
  let result : Dict := (knownPairs u).filterMap fun kv => kv.2.map fun s => (kv.1, JVal.val s)
  u.custom_fields.foldl (fun acc kv => assocUpdate acc kv.1 (JVal.val kv.2)) result



/-! ## User-data storage and data routes (`db_manager.py`, `data_service.py`,
`routes.py`) -/

/-- The `user_data` table: one JSON document per user id (`id` is the
primary key). -/
abbrev UserStore := List (String × Dict)

/-- The observable state of the SQLite connection for one request: a working
database with its `user_data` table, or a backend that raises
`sqlite3.Error` on access. -/
inductive DbState where
  | ok : UserStore → DbState
  | failing : DbState
deriving DecidableEq, Repr

namespace DatabaseManager

/-- Model of `DatabaseManager.get_user_data`: row found → parsed dict; no row → `{}`;
`sqlite3.Error` → caught, logged, returns `None`. -/
def get_user_data (db : DbState) (uid : String) : Option Dict :=
  match db with
  | DbState.ok store => some ((store.lookup uid).getD [])
  | DbState.failing => none

/-- Model of `DatabaseManager.save_user_data`: `INSERT OR REPLACE` on the primary key
`id` then `True`; on `sqlite3.Error`, caught and `False`. -/
def save_user_data (db : DbState) (uid : String) (d : Dict) : DbState × Bool :=
  match db with
  | DbState.ok store => (DbState.ok (assocUpdate store uid d), true)
  | DbState.failing => (DbState.failing, false)

end DatabaseManager

namespace DataService

/-- Model of `DataService.get_user_data`: falsy data (`None` from a storage failure,
or an empty dict) becomes `{}`; its own `except` branch is unreachable since
the database layer returns instead of raising. -/
def get_user_data (db : DbState) (uid : String) : Dict :=
  match DatabaseManager.get_user_data db uid with
  | some d => if d.isEmpty then [] else d
  | none => []

/-- Model of `DataService.save_user_data`: validate through `UserData` and store the
normalized dictionary. -/
def save_user_data (db : DbState) (uid : String) (data : Dict) : DbState × Bool :=
  DatabaseManager.save_user_data db uid (UserData.to_dict (UserData.from_dict uid data))

end DataService

/-- A response body: a JSON dictionary or the error shape
`{"error": message}`. -/
inductive RespBody where
  | json : Dict → RespBody
  | errorMsg : String → RespBody
deriving DecidableEq, Repr

/-- An HTTP response: status code and body. -/
structure HttpResponse where
  status : Nat
  body : RespBody
deriving DecidableEq, Repr

/-- Model of `GET /data` (`routes.get_user_data`): the service layer never raises —
it catches everything and returns a dict — so the route's `except` branch
(status 500) is unreachable and every response is a 200 with the dict. -/
def get_user_data_route (db : DbState) (uid : String) : HttpResponse :=
  ⟨200, RespBody.json (DataService.get_user_data db uid)⟩

/-- Model of `POST /data` (`routes.save_user_data`): non-dict body → 400; then 200
`{"status":"success"}` or 500 with the error shape according to the service
result. -/
def save_user_data_route (db : DbState) (uid : String) (body : Option Dict) :
    DbState × HttpResponse :=
  match body with
  | none => (db, ⟨400, RespBody.errorMsg "Invalid data format"⟩)
  | some data =>
    match DataService.save_user_data db uid data with
    | (db2, true) => (db2, ⟨200, RespBody.json [("status", JVal.val "success")]⟩)
    | (db2, false) => (db2, ⟨500, RespBody.errorMsg "Failed to save user data"⟩)


/-! ## The `form_mappings` table (`db_manager.py`) -/

/-- One row of `form_mappings` (the AUTOINCREMENT id is reflected by the
row's position in the list). -/
structure MappingRow where
  domain : String
  form_id : Option String
  field_name : String
  field_type : Option String
  user_field : String
  confidence : ℚ
deriving DecidableEq, Repr

/-- SQLite's conflict test for `UNIQUE(domain, form_id, field_name)`:
`domain` and `field_name` are NOT NULL and compare by equality, while two
NULL `form_id`s are distinct, so only equal non-NULL `form_id`s conflict. -/
def rowsConflict (a b : MappingRow) : Bool :=
  a.domain == b.domain && a.field_name == b.field_name &&
    (match a.form_id, b.form_id with
     | some x, some y => x == y
     | _, _ => false)

namespace DatabaseManager

/-- Model of `DatabaseManager.save_form_mapping`: `INSERT OR REPLACE` deletes the
rows the new row conflicts with, then inserts the new row. -/
def save_form_mapping (table : List MappingRow) (domain field_name user_field : String)
    (form_id field_type : Option String) (confidence : ℚ) : List MappingRow :=
  let row : MappingRow := ⟨domain, form_id, field_name, field_type, user_field, confidence⟩
  (table.filter fun r => !(rowsConflict r row)) ++ [row]

/-- Model of `DatabaseManager.get_form_mappings`: rows of the domain (and of the form
when a `form_id` is passed; a SQL `form_id = ?` comparison never matches a
NULL `form_id`), projected to (field_name, field_type, user_field,
confidence). -/
def get_form_mappings (table : List MappingRow) (domain : String) (form_id : Option String) :
    List (String × Option String × String × ℚ) :=
  let rows : List MappingRow := match form_id with
    | some fid => table.filter fun r => r.domain == domain && r.form_id == some fid
    | none => table.filter fun r => r.domain == domain
  rows.map fun r => (r.field_name, r.field_type, r.user_field, r.confidence)

end DatabaseManager



/-! ## Auxiliary definitions used in statements -/

/-- The arithmetic mean of a list of rationals. -/
def arithMean (l : List ℚ) : ℚ :=
  l.sum / (l.length : ℚ)

/-- The ten `user_field` category literals returned by
`_match_field_patterns`. -/
def categories : List String :=
  ["first_name", "last_name", "full_name", "email", "phone",
   "address_street", "address_city", "address_state", "address_zip", "address_country"]

/-! ## Helper lemmas -/

/-- Constant `conf09` is the rational denoted `0.9`. -/
theorem conf09_eq : conf09 = 0.9 := by apply Rat.ext <;> norm_num [conf09]

/-- Constant `conf08` is the rational denoted `0.8`. -/
theorem conf08_eq : conf08 = 0.8 := by apply Rat.ext <;> norm_num [conf08]

/-- Constant `conf085` is the rational denoted `0.85`. -/
theorem conf085_eq : conf085 = 0.85 := by apply Rat.ext <;> norm_num [conf085]

theorem filterMap_map_some_sublist {α β : Type} (f : α → Option β) :
    ∀ l : List α, List.Sublist ((l.filterMap f).map some) (l.map f)
  | [] => List.Sublist.slnil
  | a :: l => by
    cases h : f a with
    | none =>
      simpa [List.filterMap_cons, h] using
        List.Sublist.cons (f a) (filterMap_map_some_sublist f l)
    | some b =>
      simpa [List.filterMap_cons, h] using
        List.Sublist.cons₂ (some b) (filterMap_map_some_sublist f l)

theorem match_field_patterns_some (text ty : String) (u : String) (c : ℚ)
    (h : match_field_patterns text ty = (some u, c)) :
    u ∈ categories ∧ (c = conf08 ∨ c = conf09) := by
  unfold match_field_patterns at h
  repeat' split at h
  all_goals simp_all [categories]

theorem match_field_patterns_none (text ty : String) (c : ℚ)
    (h : match_field_patterns text ty = (none, c)) : c = 0 := by
  unfold match_field_patterns at h
  repeat' split at h
  all_goals simp_all

/-! ## Claim theorems -/

/-- C4: for every field descriptor whose `type` equals `"email"`,
`interpret_field` returns user_field `email` with confidence 0.9, whatever
the name, id, label and placeholder contain and whatever the RAG state
is. -/
theorem c4_email_type_forces_email (rag : Option RagOutcome) (f : FieldDesc)
    (h : f.type = "email") :
    interpret_field rag f =
      some ⟨nameOrId f, "email", "email", conf09, "pattern_matching"⟩ := by
  have hle : conf08 ≤ conf09 := by decide
  simp [interpret_field, match_field_patterns, h, hle]

/-- C4 witness: a concrete descriptor of type `email` with non-email text. -/
theorem c4_email_type_forces_email_witness :
    (FieldDesc.mk "x" "" "email" "" "").type = "email" ∧
    interpret_field none ⟨"x", "", "email", "", ""⟩ =
      some ⟨"x", "email", "email", conf09, "pattern_matching"⟩ :=
  ⟨rfl, c4_email_type_forces_email none _ rfl⟩

/-- C5: the confidence of `interpret_form` is the arithmetic mean of the
confidences of the returned mappings, 0 when there are none; and the empty
form gives `([], 0)`. -/
theorem c5_confidence_is_mean :
    (∀ (rag : Option RagOutcome) (fields : List FieldDesc),
      (interpret_form rag fields).2 =
        if (interpret_form rag fields).1.isEmpty then 0
        else arithMean ((interpret_form rag fields).1.map Mapping.confidence)) ∧
    (∀ rag : Option RagOutcome, interpret_form rag [] = ([], 0)) := by
  constructor
  · intro rag fields
    cases fields with
    | nil => simp [interpret_form]
    | cons a l =>
      simp only [interpret_form, List.isEmpty_cons, Bool.false_eq_true, if_false]
      simp [calculate_confidence, arithMean]
  · intro rag
    rfl

/-- C10: the mappings of `interpret_form` are exactly the per-field results
with the `None`s removed: at most one per input field, in input order, with
non-matching fields omitted (their positions survive as `none` in the
per-field result list, of which the output is the `some`-subsequence). -/
theorem c10_mappings_in_input_order (rag : Option RagOutcome) (fields : List FieldDesc) :
    (interpret_form rag fields).1 = fields.filterMap (interpret_field rag) ∧
    (interpret_form rag fields).1.length ≤ fields.length ∧
    List.Sublist ((interpret_form rag fields).1.map some)
      (fields.map (interpret_field rag)) := by
  have h1 : (interpret_form rag fields).1 = fields.filterMap (interpret_field rag) := by
    cases fields <;> simp [interpret_form]
  refine ⟨h1, ?_, ?_⟩
  · rw [h1]
    exact List.length_filterMap_le _ _
  · rw [h1]
    exact filterMap_map_some_sublist _ _

/-- C9: with RAG disabled, `interpret_form` is pure and deterministic — a
call leaves the instance state unchanged and its result does not depend on
the instance, on the external oracle, or on any earlier call. -/
theorem c9_interpret_form_pure (s₁ s₂ : InterpreterState) (o₁ o₂ : RagOutcome)
    (fields : List FieldDesc)
    (h₁ : s₁.rag_enabled = false) (h₂ : s₂.rag_enabled = false) :
    (interpret_form_method s₁ o₁ fields).1 = s₁ ∧
    (interpret_form_method s₁ o₁ fields).2 = (interpret_form_method s₂ o₂ fields).2 := by
  simp [interpret_form_method, h₁, h₂]

/-- C9 witness: two different RAG-disabled instances and oracles, same
result and unchanged state. -/
theorem c9_interpret_form_pure_witness :
    (InterpreterState.mk false false "").rag_enabled = false ∧
    ((interpret_form_method ⟨false, false, ""⟩ RagOutcome.raises [⟨"fname", "", "", "", ""⟩]).1 =
        ⟨false, false, ""⟩ ∧
      (interpret_form_method ⟨false, false, ""⟩ RagOutcome.raises [⟨"fname", "", "", "", ""⟩]).2 =
        (interpret_form_method ⟨false, true, "db"⟩ (RagOutcome.answers "x")
          [⟨"fname", "", "", "", ""⟩]).2) :=
  ⟨rfl, c9_interpret_form_pure _ _ _ _ _ rfl rfl⟩

theorem ragMapping_some_eq (rag : Option RagOutcome) (f : FieldDesc) (mr : Mapping)
    (h : ragMapping rag f = some mr) : mr.confidence = conf085 ∧ mr.method = "rag" := by
  unfold ragMapping at h
  repeat' split at h
  all_goals try simp_all
  obtain ⟨-, rfl⟩ := h
  exact ⟨rfl, rfl⟩

/-- C1: `_match_field_patterns` is the first-match-wins evaluation of the
fixed ten-row priority table; a first_name match with no earlier trigger
yields `first_name` at 0.9 (so does the `name="fname"` descriptor); and with
no matching rule the result is `(none, 0)`. -/
theorem c1_priority_order :
    (∀ text ty, match_field_patterns text ty = firstRuleMatch ruleTable text ty) ∧
    (∀ f : FieldDesc, f.type ≠ "email" → f.type ≠ "tel" →
      searchPat emailAlts (fieldText f) = false →
      searchPat phoneAlts (fieldText f) = false →
      searchPat firstNameAlts (fieldText f) = true →
      interpret_field none f =
        some ⟨nameOrId f, f.type, "first_name", conf09, "pattern_matching"⟩) ∧
    (interpret_field none ⟨"fname", "", "", "", ""⟩ =
      some ⟨"fname", "", "first_name", conf09, "pattern_matching"⟩) ∧
    (∀ text ty, ty ≠ "email" → ty ≠ "tel" →
      searchPat emailAlts text = false → searchPat phoneAlts text = false →
      searchPat firstNameAlts text = false → searchPat lastNameAlts text = false →
      searchPat nameAlts text = false → searchPat addressAlts text = false →
      searchPat cityAlts text = false → searchPat stateAlts text = false →
      searchPat zipAlts text = false → searchPat countryAlts text = false →
      match_field_patterns text ty = (none, 0)) := by
  refine ⟨fun text ty => ?_, fun f hty1 hty2 he hp hf => ?_, by decide,
    fun text ty hty1 hty2 e1 e2 e3 e4 e5 e6 e7 e8 e9 e10 => ?_⟩
  · simp [match_field_patterns, firstRuleMatch, ruleTable]
  · have h1 : (f.type == "email") = false := beq_eq_false_iff_ne.mpr hty1
    have h2 : (f.type == "tel") = false := beq_eq_false_iff_ne.mpr hty2
    have hle : conf08 ≤ conf09 := by decide
    simp [interpret_field, match_field_patterns, h1, h2, he, hp, hf, hle]
  · have h1 : (ty == "email") = false := beq_eq_false_iff_ne.mpr hty1
    have h2 : (ty == "tel") = false := beq_eq_false_iff_ne.mpr hty2
    simp [match_field_patterns, h1, h2, e1, e2, e3, e4, e5, e6, e7, e8, e9, e10]

/-- C1 witness: the `fname` descriptor discharges the first-name clause, and
a matchless text discharges the no-match clause. -/
theorem c1_priority_order_witness :
    searchPat firstNameAlts (fieldText ⟨"fname", "", "", "", ""⟩) = true ∧
    interpret_field none ⟨"fname", "", "", "", ""⟩ =
      some ⟨"fname", "", "first_name", conf09, "pattern_matching"⟩ ∧
    match_field_patterns "zzz" "text" = (none, 0) :=
  ⟨by decide,
   c1_priority_order.2.1 ⟨"fname", "", "", "", ""⟩ (by decide) (by decide) (by decide)
     (by decide) (by decide),
   c1_priority_order.2.2.2 "zzz" "text" (by decide) (by decide) (by decide) (by decide)
     (by decide) (by decide) (by decide) (by decide) (by decide) (by decide) (by decide)
     (by decide)⟩

/-- C6: every mapping emitted by `interpret_field` has confidence in [0,1],
and a `pattern_matching` mapping carries one of the ten fixed categories at
confidence 0.8 or 0.9. -/
theorem c6_mapping_invariants (rag : Option RagOutcome) (f : FieldDesc) (m : Mapping)
    (h : interpret_field rag f = some m) :
    0 ≤ m.confidence ∧ m.confidence ≤ 1 ∧
    (m.method = "pattern_matching" →
      m.user_field ∈ categories ∧ (m.confidence = conf08 ∨ m.confidence = conf09)) := by
  have b1 : (0 : ℚ) ≤ conf08 := by decide
  have b2 : conf08 ≤ 1 := by decide
  have b3 : (0 : ℚ) ≤ conf09 := by decide
  have b4 : conf09 ≤ 1 := by decide
  have b5 : (0 : ℚ) ≤ conf085 := by decide
  have b6 : conf085 ≤ 1 := by decide
  unfold interpret_field at h
  split at h
  next u c heq =>
    obtain ⟨hu, hc⟩ := match_field_patterns_some _ _ _ _ heq
    split at h
    next hle =>
      injection h with h
      subst h
      rcases hc with rfl | rfl
      · exact ⟨b1, b2, fun _ => ⟨hu, Or.inl rfl⟩⟩
      · exact ⟨b3, b4, fun _ => ⟨hu, Or.inr rfl⟩⟩
    next hle =>
      split at h
      next mr hr =>
        injection h with h
        subst h
        obtain ⟨hconf, hmeth⟩ := ragMapping_some_eq rag f mr hr
        rw [hconf, hmeth]
        exact ⟨b5, b6, fun habs => absurd habs (by decide)⟩
      next hr =>
        injection h with h
        subst h
        rcases hc with rfl | rfl
        · exact ⟨b1, b2, fun _ => ⟨hu, Or.inl rfl⟩⟩
        · exact ⟨b3, b4, fun _ => ⟨hu, Or.inr rfl⟩⟩
  next c heq =>
    obtain ⟨hconf, hmeth⟩ := ragMapping_some_eq rag f m h
    rw [hconf, hmeth]
    exact ⟨b5, b6, fun habs => absurd habs (by decide)⟩

/-- C6 witness: a concrete pattern-matched mapping. -/
theorem c6_mapping_invariants_witness :
    interpret_field none ⟨"city", "", "", "", ""⟩ =
      some ⟨"city", "", "address_city", conf08, "pattern_matching"⟩ ∧
    (0 ≤ (conf08 : ℚ) ∧ (conf08 : ℚ) ≤ 1 ∧
      ("pattern_matching" = "pattern_matching" →
        "address_city" ∈ categories ∧ ((conf08 : ℚ) = conf08 ∨ (conf08 : ℚ) = conf09))) :=
  ⟨by decide,
   c6_mapping_invariants none ⟨"city", "", "", "", ""⟩
     ⟨"city", "", "address_city", conf08, "pattern_matching"⟩ (by decide)⟩

/-- C7: a failing RAG query — an exception, or an answer that strips to
empty or to 50 or more characters — leaves `interpret_field` exactly at its
pattern-matching result, the one RAG-disabled interpretation returns. -/
theorem c7_rag_failure_falls_back (f : FieldDesc) (o : RagOutcome)
    (h : o = RagOutcome.raises ∨
      ∃ s, o = RagOutcome.answers s ∧
        (pyStripLower s = "" ∨ 50 ≤ (pyStripLower s).length)) :
    interpret_field (some o) f = interpret_field none f := by
  have hrag : ragMapping (some o) f = none := by
    rcases h with rfl | ⟨s, rfl, hs⟩
    · rfl
    · unfold ragMapping
      rcases hs with hs | hs
      · simp [hs]
      · have hlt : ¬ (pyStripLower s).length < 50 := Nat.not_lt.mpr hs
        simp [hlt]
  have hnone : ragMapping (none : Option RagOutcome) f = none := rfl
  unfold interpret_field
  simp only [hrag, hnone]

/-- C7 witness: a whitespace-only RAG answer on an unmatchable field falls
back to the no-mapping result. -/
theorem c7_rag_failure_falls_back_witness :
    (RagOutcome.answers "  " = RagOutcome.raises ∨
      ∃ s, RagOutcome.answers "  " = RagOutcome.answers s ∧
        (pyStripLower s = "" ∨ 50 ≤ (pyStripLower s).length)) ∧
    interpret_field (some (RagOutcome.answers "  ")) ⟨"nick", "", "", "", ""⟩ =
      interpret_field none ⟨"nick", "", "", "", ""⟩ :=
  ⟨Or.inr ⟨"  ", rfl, Or.inl (by decide)⟩,
   c7_rag_failure_falls_back _ _ (Or.inr ⟨"  ", rfl, Or.inl (by decide)⟩)⟩

/-- C2: saving twice for the same (domain, form_id, field_name) with an
absent `form_id` leaves TWO records — SQLite's `UNIQUE(domain, form_id,
field_name)` treats NULL `form_id`s as distinct, so `INSERT OR REPLACE`
never replaces — and the fetch returns the field name twice; with a
non-NULL `form_id` the second save does replace the first. -/
theorem c2_duplicate_records_on_null_form_id :
    DatabaseManager.save_form_mapping
        (DatabaseManager.save_form_mapping [] "example.com" "email" "email" none none 1)
        "example.com" "email" "email2" none none 1 =
      [⟨"example.com", none, "email", none, "email", 1⟩,
       ⟨"example.com", none, "email", none, "email2", 1⟩] ∧
    DatabaseManager.get_form_mappings
        (DatabaseManager.save_form_mapping
          (DatabaseManager.save_form_mapping [] "example.com" "email" "email" none none 1)
          "example.com" "email" "email2" none none 1)
        "example.com" none =
      [("email", none, "email", 1), ("email", none, "email2", 1)] ∧
    DatabaseManager.get_form_mappings
        (DatabaseManager.save_form_mapping
          (DatabaseManager.save_form_mapping [] "example.com" "email" "email" (some "f1") none 1)
          "example.com" "email" "email2" (some "f1") none 1)
        "example.com" (some "f1") =
      [("email", none, "email2", 1)] := by decide

/-- C8 counterexample: a storage failure during `GET /data` produces a 200
success response with an empty profile, not the claimed 500 error shape. -/
theorem c8_storage_failure_counterexample :
    get_user_data_route DbState.failing "default" = ⟨200, RespBody.json []⟩ ∧
    (get_user_data_route DbState.failing "default").status ≠ 500 := by decide

/-- C8 amended: `GET /data` always answers 200 — a storage failure is
swallowed into an empty profile — while a storage failure during
`POST /data` does produce the 500 error shape. -/
theorem c8_storage_failure_amended :
    (∀ (db : DbState) (uid : String), (get_user_data_route db uid).status = 200) ∧
    get_user_data_route DbState.failing "default" = ⟨200, RespBody.json []⟩ ∧
    (∀ (uid : String) (data : Dict),
      (save_user_data_route DbState.failing uid (some data)).2 =
        ⟨500, RespBody.errorMsg "Failed to save user data"⟩) :=
  ⟨fun _ _ => rfl, by decide, fun _ _ => rfl⟩

/-! ## Association-list lemmas for the profile round trip -/

theorem lookup_eq_none_of_not_mem_keys {β : Type} (l : List (String × β)) (q : String)
    (h : q ∉ l.map Prod.fst) : l.lookup q = none := by
  induction l with
  | nil => rfl
  | cons hd tl ih =>
    obtain ⟨a, w⟩ := hd
    simp only [List.map_cons, List.mem_cons, not_or] at h
    have hb : (q == a) = false := beq_eq_false_iff_ne.mpr h.1
    simp [List.lookup, hb, ih h.2]

theorem lookup_mem {β : Type} (l : List (String × β)) (q : String) (v : β)
    (h : l.lookup q = some v) : (q, v) ∈ l := by
  induction l with
  | nil => simp [List.lookup] at h
  | cons hd tl ih =>
    obtain ⟨a, w⟩ := hd
    by_cases hqa : q = a
    · subst hqa
      simp [List.lookup] at h
      simp [h]
    · have hb : (q == a) = false := beq_eq_false_iff_ne.mpr hqa
      simp [List.lookup, hb] at h
      exact List.mem_cons_of_mem _ (ih h)

theorem assocUpdate_lookup {β : Type} (l : List (String × β)) (k : String) (v : β) (q : String) :
    (assocUpdate l k v).lookup q = if q = k then some v else l.lookup q := by
  induction l with
  | nil =>
    by_cases hqk : q = k
    · subst hqk
      simp [assocUpdate, List.lookup]
    · have hb : (q == k) = false := beq_eq_false_iff_ne.mpr hqk
      simp [assocUpdate, List.lookup, hb, hqk]
  | cons hd tl ih =>
    obtain ⟨a, w⟩ := hd
    by_cases hak : a = k
    · subst hak
      by_cases hqa : q = a
      · subst hqa
        simp [assocUpdate, List.lookup]
      · have hb : (q == a) = false := beq_eq_false_iff_ne.mpr hqa
        simp [assocUpdate, List.lookup, hb, hqa]
    · have hak2 : (a == k) = false := beq_eq_false_iff_ne.mpr hak
      by_cases hqa : q = a
      · subst hqa
        have hqk : ¬ q = k := hak
        simp [assocUpdate, List.lookup, hak2, hqk]
      · have hqa2 : (q == a) = false := beq_eq_false_iff_ne.mpr hqa
        by_cases hqk : q = k
        · subst hqk
          simp [assocUpdate, List.lookup, hak2, hqa2, ih]
        · simp [assocUpdate, List.lookup, hak2, hqa2, hqk, ih]

theorem foldl_update_lookup (customs : List (String × String)) (acc : Dict) (q : String)
    (hnd : (customs.map Prod.fst).Nodup) :
    (customs.foldl (fun acc kv => assocUpdate acc kv.1 (JVal.val kv.2)) acc).lookup q =
      match customs.lookup q with
      | some v => some (JVal.val v)
      | none => acc.lookup q := by
  induction customs generalizing acc with
  | nil => rfl
  | cons hd tl ih =>
    obtain ⟨c, v⟩ := hd
    simp only [List.map_cons, List.nodup_cons] at hnd
    simp only [List.foldl_cons]
    rw [ih _ hnd.2]
    by_cases hqc : q = c
    · subst hqc
      have h1 : tl.lookup q = none := lookup_eq_none_of_not_mem_keys tl q hnd.1
      simp [h1, List.lookup, assocUpdate_lookup]
    · have hb : (q == c) = false := beq_eq_false_iff_ne.mpr hqc
      cases h1 : tl.lookup q <;> simp [h1, List.lookup, hb, assocUpdate_lookup, hqc]

theorem customFieldsOf_keys_not_known (data : Dict) (p : String × String)
    (hp : p ∈ customFieldsOf data) : p.1 ∉ knownKeys := by
  obtain ⟨kv, _, hkv⟩ := List.mem_filterMap.mp hp
  by_cases hk : kv.1 ∈ knownKeys
  · simp [hk] at hkv
  · cases hv : kv.2 with
    | null => simp [hk, hv] at hkv
    | val s =>
      simp [hk, hv] at hkv
      rw [← hkv]
      exact hk

theorem customFieldsOf_keys_sublist (data : Dict) :
    List.Sublist ((customFieldsOf data).map Prod.fst) (data.map Prod.fst) := by
  induction data with
  | nil => simp [customFieldsOf]
  | cons kv rest ih =>
    obtain ⟨a, v⟩ := kv
    by_cases hk : a ∈ knownKeys
    · simp only [customFieldsOf, List.filterMap_cons] at ih ⊢
      simp only [hk, if_true, List.map_cons]
      exact ih.cons a
    · cases v with
      | null =>
        simp only [customFieldsOf, List.filterMap_cons] at ih ⊢
        simp only [hk, if_false, List.map_cons]
        exact ih.cons a
      | val s =>
        simp only [customFieldsOf, List.filterMap_cons] at ih ⊢
        simp only [hk, if_false, List.map_cons]
        exact ih.cons₂ a

theorem customFieldsOf_lookup (data : Dict) (q : String) (hq : q ∉ knownKeys)
    (hnn : ∀ kv ∈ data, kv.2 ≠ JVal.null) :
    (customFieldsOf data).lookup q =
      match data.lookup q with
      | some (JVal.val s) => some s
      | _ => none := by
  induction data with
  | nil => rfl
  | cons kv rest ih =>
    obtain ⟨a, v⟩ := kv
    have hnn2 : ∀ kv ∈ rest, kv.2 ≠ JVal.null := fun kv hkv => hnn kv (List.mem_cons_of_mem _ hkv)
    by_cases hk : a ∈ knownKeys
    · have hqa : q ≠ a := fun h => hq (h ▸ hk)
      have hb : (q == a) = false := beq_eq_false_iff_ne.mpr hqa
      simp only [customFieldsOf, List.filterMap_cons, hk, if_true]
      simp [List.lookup, hb]
      exact ih hnn2
    · cases hv : v with
      | null =>
        have := hnn (a, v) (List.mem_cons_self _ _)
        simp [hv] at this
      | val s =>
        simp only [customFieldsOf, List.filterMap_cons, hk, if_false]
        by_cases hqa : q = a
        · subst hqa
          simp [List.lookup]
        · have hb : (q == a) = false := beq_eq_false_iff_ne.mpr hqa
          simp [List.lookup, hb]
          exact ih hnn2

theorem filterMapKnown_lookup_not_mem (l : List (String × Option String)) (q : String)
    (h : q ∉ l.map Prod.fst) :
    (l.filterMap fun kv => kv.2.map fun s => (kv.1, JVal.val s)).lookup q = none := by
  induction l with
  | nil => rfl
  | cons hd tl ih =>
    obtain ⟨a, o⟩ := hd
    simp only [List.map_cons, List.mem_cons, not_or] at h
    have hb : (q == a) = false := beq_eq_false_iff_ne.mpr h.1
    cases o with
    | none => simpa [List.filterMap_cons] using ih h.2
    | some s =>
      simp only [List.filterMap_cons, Option.map_some', List.lookup, hb]
      exact ih h.2

theorem filterMapKnown_lookup (l : List (String × Option String)) (q : String)
    (hnd : (l.map Prod.fst).Nodup) :
    (l.filterMap fun kv => kv.2.map fun s => (kv.1, JVal.val s)).lookup q =
      match l.lookup q with
      | some (some s) => some (JVal.val s)
      | _ => none := by
  induction l with
  | nil => rfl
  | cons hd tl ih =>
    obtain ⟨a, o⟩ := hd
    simp only [List.map_cons, List.nodup_cons] at hnd
    by_cases hqa : q = a
    · subst hqa
      cases o with
      | none =>
        simp only [List.filterMap_cons]
        simp [List.lookup, filterMapKnown_lookup_not_mem tl q hnd.1]
      | some s =>
        simp only [List.filterMap_cons]
        simp [List.lookup]
    · have hb : (q == a) = false := beq_eq_false_iff_ne.mpr hqa
      cases o with
      | none =>
        simp only [List.filterMap_cons]
        simp [List.lookup, hb]
        exact ih hnd.2
      | some s =>
        simp only [List.filterMap_cons]
        simp [List.lookup, hb]
        exact ih hnd.2

theorem knownPairs_from_dict_lookup (uid : String) (data : Dict) (q : String)
    (hq : q ∈ knownKeys) :
    (knownPairs (UserData.from_dict uid data)).lookup q = some (getKnown data q) := by
  simp only [knownKeys, List.mem_cons, List.not_mem_nil, or_false] at hq
  rcases hq with rfl | rfl | rfl | rfl | rfl | rfl | rfl | rfl | rfl | rfl <;> rfl

theorem to_dict_from_dict_lookup (uid : String) (data : Dict)
    (hnd : (data.map Prod.fst).Nodup) (hnn : ∀ kv ∈ data, kv.2 ≠ JVal.null) (q : String) :
    (UserData.to_dict (UserData.from_dict uid data)).lookup q = data.lookup q := by
  have hkeys : (knownPairs (UserData.from_dict uid data)).map Prod.fst = knownKeys := rfl
  have hknd : ((knownPairs (UserData.from_dict uid data)).map Prod.fst).Nodup := by
    rw [hkeys]
    decide
  have hcnd : ((customFieldsOf data).map Prod.fst).Nodup :=
    hnd.sublist (customFieldsOf_keys_sublist data)
  show ((customFieldsOf data).foldl (fun acc kv => assocUpdate acc kv.1 (JVal.val kv.2))
      ((knownPairs (UserData.from_dict uid data)).filterMap
        fun kv => kv.2.map fun s => (kv.1, JVal.val s))).lookup q = data.lookup q
  rw [foldl_update_lookup _ _ _ hcnd]
  by_cases hq : q ∈ knownKeys
  · have hc : (customFieldsOf data).lookup q = none := by
      apply lookup_eq_none_of_not_mem_keys
      intro hmem
      obtain ⟨p, hp, hpq⟩ := List.mem_map.mp hmem
      exact customFieldsOf_keys_not_known data p hp (hpq ▸ hq)
    rw [hc]
    rw [filterMapKnown_lookup _ _ hknd, knownPairs_from_dict_lookup uid data q hq]
    unfold getKnown
    cases hl : data.lookup q with
    | none => rfl
    | some v =>
      cases v with
      | null => exact absurd rfl (hnn _ (lookup_mem _ _ _ hl))
      | val s => rfl
  · have hk : (knownPairs (UserData.from_dict uid data)).lookup q = none := by
      apply lookup_eq_none_of_not_mem_keys
      rw [hkeys]
      exact hq
    rw [customFieldsOf_lookup data q hq hnn]
    cases hl : data.lookup q with
    | none =>
      rw [filterMapKnown_lookup _ _ hknd, hk]
    | some v =>
      cases v with
      | null => exact absurd rfl (hnn _ (lookup_mem _ _ _ hl))
      | val s => rfl

/-- C3 counterexample: a profile with a null-valued entry does not round
trip — the fetched dictionary is empty and disagrees with the saved one at
the key `nickname`. -/
theorem c3_roundtrip_counterexample :
    DataService.get_user_data
        (DataService.save_user_data (DbState.ok []) "u" [("nickname", JVal.null)]).1 "u" = [] ∧
    (DataService.get_user_data
        (DataService.save_user_data (DbState.ok []) "u" [("nickname", JVal.null)]).1
        "u").lookup "nickname" ≠
      ([("nickname", JVal.null)] : Dict).lookup "nickname" := by decide

/-- C3 amended: for every profile dictionary whose values are all non-null,
save followed by fetch for the same user id returns an equivalent
dictionary (pointwise-equal lookups); null-valued entries are dropped.
Custom-field keys are disjoint from the known keys unconditionally. -/
theorem c3_roundtrip_amended (store : UserStore) (uid : String) (data : Dict)
    (hnd : (data.map Prod.fst).Nodup) (hnn : ∀ kv ∈ data, kv.2 ≠ JVal.null) :
    (∀ q, (DataService.get_user_data
        (DataService.save_user_data (DbState.ok store) uid data).1 uid).lookup q =
      data.lookup q) ∧
    (∀ p ∈ (UserData.from_dict uid data).custom_fields, p.1 ∉ knownKeys) := by
  constructor
  · intro q
    have hlu : (assocUpdate store uid (UserData.to_dict (UserData.from_dict uid data))).lookup
        uid = some (UserData.to_dict (UserData.from_dict uid data)) := by
      rw [assocUpdate_lookup]
      simp
    simp only [DataService.save_user_data, DatabaseManager.save_user_data,
      DataService.get_user_data, DatabaseManager.get_user_data, hlu, Option.getD_some]
    split
    next hemp =>
      have hnil : UserData.to_dict (UserData.from_dict uid data) = [] :=
        List.isEmpty_iff.mp hemp
      rw [← to_dict_from_dict_lookup uid data hnd hnn q, hnil]
    next => exact to_dict_from_dict_lookup uid data hnd hnn q
  · intro p hp
    exact customFieldsOf_keys_not_known data p hp

/-- C3 witness: a concrete profile with one known and one custom key round
trips through save and fetch. -/
theorem c3_roundtrip_amended_witness :
    (([("email", JVal.val "a@b"), ("nick", JVal.val "n")] : Dict).map Prod.fst).Nodup ∧
    (DataService.get_user_data
        (DataService.save_user_data (DbState.ok []) "u"
          [("email", JVal.val "a@b"), ("nick", JVal.val "n")]).1 "u").lookup "nick" =
      ([("email", JVal.val "a@b"), ("nick", JVal.val "n")] : Dict).lookup "nick" :=
  ⟨by decide, (c3_roundtrip_amended [] "u" [("email", JVal.val "a@b"), ("nick", JVal.val "n")]
    (by decide) (by decide)).1 "nick"⟩
